import Mathlib

/-!
Shallow embedding of the concurrency crate (src/src/vector.rs, src/src/matrix.rs).

Rust panics (out-of-range slice or index, `unwrap` on a failed channel
operation or dot product) are modelled as `none` / `MErr.Panic`; fallible
functions returning `anyhow::Result` are modelled with `Except MErr`.
The worker pool is modelled by the observation that each task's reply travels
on a channel private to that task, so the value gathered at receiver position
`p` is exactly the dot product of task `p`'s row and column, independent of
which worker computed it and of thread interleaving; the worker count `n`
enters only through `senders[idx % n]` (which panics when `n = 0` and at
least one task is sent).
-/

namespace Concurrency

/-- Failure modes: `DimensionMismatch` is the `anyhow` error returned by
`dot_product` / `multiply`; `Panic` stands for any Rust panic (out-of-range
indexing or a failed `unwrap`). -/
inductive MErr where
  | DimensionMismatch
  | Panic
deriving DecidableEq, Repr

/-- `Vector<T>` from vector.rs: a wrapper around a `Vec<T>`. -/
structure Vector (α : Type) where
  data : List α
deriving DecidableEq, Repr

/-- `Vector::new`. -/
def Vector.new (data : List α) : Vector α := ⟨data⟩

/-- `dot_product` from vector.rs: errors when the lengths differ, otherwise
folds `result += a[i] * b[i]` over `i in 0..a.len()`.  The Rust accumulator
seed is `T::default()`, which is the additive identity `0` for every numeric
element type the crate instantiates, so the embedding seeds with `0`. -/
def dot_product [Zero α] [Add α] [Mul α] (a b : Vector α) : Except MErr α :=
  if a.data.length ≠ b.data.length then
    .error .DimensionMismatch
  else
    .ok ((List.range a.data.length).foldl
      (fun acc i => acc + a.data.getD i 0 * b.data.getD i 0) 0)

/-- `Matrix<T>` from matrix.rs: row-major `rows × cols` container. -/
structure Matrix (α : Type) where
  rows : Nat
  cols : Nat
  data : List α
deriving DecidableEq, Repr

/-- `Matrix::new`: stores the triple exactly as given, with no validation of
`data.length = rows * cols`. -/
def Matrix.new (rows cols : Nat) (data : List α) : Matrix α :=
  ⟨rows, cols, data⟩

/-- `const NUM_THREADS: usize = 4`. -/
def NUM_THREADS : Nat := 4

/-- `MsgInput<T>`: destination index plus the row and column operands. -/
structure MsgInput (α : Type) where
  idx : Nat
  row : Vector α
  col : Vector α
deriving DecidableEq, Repr

/-- `MsgOutput<T>`: a worker reply carrying the destination index and value. -/
structure MsgOutput (α : Type) where
  idx : Nat
  value : α
deriving DecidableEq, Repr

/-- Rust slice `v[s..e]`: panics (`none`) unless `s ≤ e ∧ e ≤ v.len()`. -/
def sliceRange (l : List α) (s e : Nat) : Option (List α) :=
  if s ≤ e ∧ e ≤ l.length then some ((l.drop s).take (e - s)) else none

/-- Rust slice `v[s..]`: panics (`none`) unless `s ≤ v.len()`. -/
def sliceFrom (l : List α) (s : Nat) : Option (List α) :=
  if s ≤ l.length then some (l.drop s) else none

/-- Helper for `Iterator::step_by`: `k` is the number of elements still to be
skipped before the next one is yielded; after yielding, `s` elements are
skipped (so the full step is `s + 1`). -/
def stepByAux (s : Nat) : List α → Nat → List α
  | [], _ => []
  | x :: xs, 0 => x :: stepByAux s xs s
  | _ :: xs, k + 1 => stepByAux s xs k

/-- `Iterator::step_by(step)` on a list iterator: yields the elements at
indices `0, step, 2*step, …`. -/
def stepBy (l : List α) (step : Nat) : List α :=
  stepByAux (step - 1) l 0

/-- One iteration of the dispatch loop body for cell `(i, j)` of the result:
`b.data[j..].iter().step_by(b.cols).copied().collect()` for the column,
`&a.data[i * a.cols..(i + 1) * a.cols]` for the row, destination index
`i * b.cols + j`.  `none` when either slice panics. -/
def mkTask (a b : Matrix α) (i j : Nat) : Option (MsgInput α) :=
  match sliceFrom b.data j with
  | none => none
  | some tl =>
    match sliceRange a.data (i * a.cols) ((i + 1) * a.cols) with
    | none => none
    | some row =>
      some ⟨i * b.cols + j, Vector.new row, Vector.new (stepBy tl b.cols)⟩

/-- Sequences a list of possibly-panicking steps: `none` as soon as one
step panics. -/
def allSome : List (Option β) → Option (List β)
  | [] => some []
  | none :: _ => none
  | some x :: rest => (allSome rest).map (fun l => x :: l)

/-- The full dispatch loop: one task per output cell, in row-major order. -/
def genTasks (a b : Matrix α) : Option (List (MsgInput α)) :=
  allSome ((List.range a.rows).flatMap (fun i =>
    (List.range b.cols).map (fun j => mkTask a b i j)))

/-- A worker's handling of one message:
`dot_product(msg.input.row, msg.input.col).unwrap()` then a reply carrying
the task's own `idx`; `none` when the `unwrap` panics. -/
def runTask [Zero α] [Add α] [Mul α] (t : MsgInput α) : Option (MsgOutput α) :=
  match dot_product t.row t.col with
  | .ok v => some ⟨t.idx, v⟩
  | .error _ => none

/-- The replies observed by the dispatcher, in receiver (= dispatch) order:
reply channels are private to their task, so position `p` holds exactly the
reply for task `p`, whichever worker computed it. -/
def workerOutputs [Zero α] [Add α] [Mul α] (ts : List (MsgInput α)) :
    Option (List (MsgOutput α)) :=
  allSome (ts.map runTask)

/-- `result[output.idx] = output.value`: panics unless `idx` is in range. -/
def writeResult (res : List α) (o : MsgOutput α) : Option (List α) :=
  if o.idx < res.length then some (res.set o.idx o.value) else none

/-- The gather loop, threading the result buffer through the idx-addressed
writes in receiver order. -/
def gatherFrom (res : List α) : List (MsgOutput α) → Option (List α)
  | [] => some res
  | o :: rest =>
    match writeResult res o with
    | none => none
    | some res1 => gatherFrom res1 rest

/-- Gather into the buffer `vec![T::default(); n]` (`default = 0` for the
numeric element types the crate uses). -/
def gather [Zero α] (n : Nat) (outs : List (MsgOutput α)) : Option (List α) :=
  gatherFrom (List.replicate n (0 : α)) outs

/-- `multiply` from matrix.rs, generalised over the worker count `n`
(the source fixes `n = NUM_THREADS = 4`): dimension check, task generation
(dispatch loop), worker dot products, idx-addressed gather.  Any panic on
the way is `MErr.Panic`; with at least one task and `n = 0` the round-robin
`senders[idx % n]` itself panics. -/
def multiply [Zero α] [Add α] [Mul α] (a b : Matrix α) (n : Nat) :
    Except MErr (Matrix α) :=
  if a.cols ≠ b.rows then .error .DimensionMismatch
  else
    match genTasks a b with
    | none => .error .Panic
    | some ts =>
      if ts.length ≠ 0 ∧ n = 0 then .error .Panic
      else
        match workerOutputs ts with
        | none => .error .Panic
        | some outs =>
          match gather (a.rows * b.cols) outs with
          | none => .error .Panic
          | some res => .ok (Matrix.new a.rows b.cols res)

/-- The `Mul` operator implementation on matrices:
`multiply(&self, &rhs).expect("Matrix multiplication failed")`, i.e. the
same computation with every error turned into a panic (`none`). -/
def matMulOp [Zero α] [Add α] [Mul α] (a b : Matrix α) : Option (Matrix α) :=
  match multiply a b NUM_THREADS with
  | .ok m => some m
  | .error _ => none

/-- The inner loop of `fmt::Display for Matrix<T>`: render the cells of row
`i` (indices `js`), appending a space after every cell except the last of
the row; `m.data[i * m.cols + j]` panics (`none`) when out of range. -/
def renderCells (f : α → String) (m : Matrix α) (i : Nat) :
    List Nat → String → Option String
  | [], acc => some acc
  | j :: js, acc =>
    match m.data[i * m.cols + j]? with
    | none => none
    | some x =>
      renderCells f m i js
        (acc ++ f x ++ (if j < m.cols - 1 then " " else ""))

/-- The outer loop of `fmt::Display`: render the rows (indices `is`),
appending `", "` after every row except the last. -/
def renderRows (f : α → String) (m : Matrix α) :
    List Nat → String → Option String
  | [], acc => some acc
  | i :: is, acc =>
    match renderCells f m i (List.range m.cols) acc with
    | none => none
    | some acc1 =>
      renderRows f m is (acc1 ++ (if i < m.rows - 1 then ", " else ""))

/-- `fmt::Display for Matrix<T>`: `{` then the rows then `}`, with `f`
standing for the element type's own `Display`. -/
def display (f : α → String) (m : Matrix α) : Option String :=
  match renderRows f m (List.range m.rows) "\x7b" with
  | none => none
  | some s => some (s ++ "\x7d")

/-! ### Proof-layer abbreviations -/

/-- Row `i` of `a` as the dispatch loop slices it:
`a.data[i * a.cols..(i + 1) * a.cols]`. -/
def rowOf (a : Matrix α) (i : Nat) : List α :=
  (a.data.drop (i * a.cols)).take a.cols

/-- Column `j` of `b` as the dispatch loop materialises it:
`b.data[j..].iter().step_by(b.cols)`. -/
def colOf (b : Matrix α) (j : Nat) : List α :=
  stepBy (b.data.drop j) b.cols

/-- The row-major list of output cell coordinates `(i, j)`. -/
def pairGrid (r c : Nat) : List (Nat × Nat) :=
  (List.range r).flatMap (fun i => (List.range c).map (fun j => (i, j)))

/-! ### Basic lemmas -/

theorem allSome_map {β γ : Type} {l : List γ} {f : γ → Option β} {g : γ → β}
    (h : ∀ x ∈ l, f x = some (g x)) :
    allSome (l.map f) = some (l.map g) := by
  induction l with
  | nil => rfl
  | cons x xs ih =>
    simp only [List.map_cons]
    rw [h x (by simp), allSome, ih (fun y hy => h y (by simp [hy]))]
    rfl

theorem stepByAux_length (s : Nat) (l : List α) (k : Nat) :
    (stepByAux s l k).length = (l.length - k + s) / (s + 1) := by
  induction l generalizing k with
  | nil =>
    show 0 = ([].length - k + s) / (s + 1)
    rw [show ([] : List α).length - k + s = s by simp, Nat.div_eq_of_lt (Nat.lt_succ_self s)]
  | cons x xs ih =>
    cases k with
    | zero =>
      simp only [stepByAux, List.length_cons, ih s]
      rcases Nat.lt_or_ge xs.length s with h | h
      · rw [Nat.sub_eq_zero_of_le (Nat.le_of_lt h), Nat.zero_add,
          Nat.div_eq_of_lt (Nat.lt_succ_self s)]
        have h1 : 1 * (s + 1) ≤ xs.length + 1 - 0 + s := by omega
        have h2 : xs.length + 1 - 0 + s < (1 + 1) * (s + 1) := by omega
        rw [Nat.div_eq_of_lt_le h1 h2]
      · rw [Nat.sub_add_cancel h]
        have h3 : xs.length + 1 - 0 + s = xs.length + (s + 1) := by omega
        rw [h3, Nat.add_div_right _ (Nat.succ_pos s)]
    | succ k2 =>
      simp only [stepByAux, List.length_cons, ih k2, Nat.succ_sub_succ]

theorem stepByAux_getElem? (s : Nat) (l : List α) (k t : Nat)
    (h : k + t * (s + 1) < l.length) :
    (stepByAux s l k)[t]? = l[k + t * (s + 1)]? := by
  induction l generalizing k t with
  | nil => simp at h
  | cons x xs ih =>
    cases k with
    | zero =>
      cases t with
      | zero => simp [stepByAux]
      | succ t2 =>
        have hb : s + t2 * (s + 1) < xs.length := by
          simp only [List.length_cons, Nat.succ_mul] at h
          omega
        have hidx : 0 + (t2 + 1) * (s + 1) = (s + t2 * (s + 1)) + 1 := by
          simp only [Nat.succ_mul]; omega
        rw [hidx]
        simp only [stepByAux, List.getElem?_cons_succ]
        exact ih s t2 hb
    | succ k2 =>
      have hb : k2 + t * (s + 1) < xs.length := by
        simp only [List.length_cons] at h
        omega
      have hidx : k2 + 1 + t * (s + 1) = (k2 + t * (s + 1)) + 1 := by omega
      rw [hidx]
      simp only [stepByAux, List.getElem?_cons_succ]
      exact ih k2 t hb

theorem stepBy_length (l : List α) (c : Nat) (hc : 1 ≤ c) :
    (stepBy l c).length = (l.length + c - 1) / c := by
  rw [stepBy, stepByAux_length]
  have h1 : c - 1 + 1 = c := by omega
  have h2 : l.length - 0 + (c - 1) = l.length + c - 1 := by omega
  rw [h1, h2]

theorem stepBy_getElem? (l : List α) (c t : Nat) (hc : 1 ≤ c)
    (h : t * c < l.length) :
    (stepBy l c)[t]? = l[t * c]? := by
  have h1 : c - 1 + 1 = c := by omega
  rw [stepBy]
  have h2 : 0 + t * (c - 1 + 1) < l.length := by rw [h1]; omega
  have := stepByAux_getElem? (c - 1) l 0 t h2
  rw [h1] at this
  simpa using this

theorem foldl_range_add {M : Type} [AddCommMonoid M] (f : Nat → M) (n : Nat)
    (init : M) :
    (List.range n).foldl (fun acc i => acc + f i) init =
      init + ∑ i ∈ Finset.range n, f i := by
  induction n with
  | zero => simp
  | succ m ih =>
    rw [List.range_succ, List.foldl_append, ih, Finset.sum_range_succ]
    simp [add_assoc]

theorem dot_product_ok {α : Type} [NonUnitalNonAssocSemiring α] (a b : Vector α)
    (h : a.data.length = b.data.length) :
    dot_product a b =
      .ok (∑ i ∈ Finset.range a.data.length, a.data.getD i 0 * b.data.getD i 0) := by
  rw [dot_product, if_neg (by simp [h]), foldl_range_add, zero_add]

theorem rowOf_length (a : Matrix α) (i : Nat)
    (ha : a.data.length = a.rows * a.cols) (hi : i < a.rows) :
    (rowOf a i).length = a.cols := by
  have h3 : (i + 1) * a.cols ≤ a.rows * a.cols := Nat.mul_le_mul_right _ hi
  rw [Nat.succ_mul] at h3
  rw [rowOf, List.length_take, List.length_drop, ha]
  exact Nat.min_eq_left (Nat.le_sub_of_add_le (by omega))

theorem rowOf_getElem? (a : Matrix α) (i t : Nat) (ht : t < a.cols) :
    (rowOf a i)[t]? = a.data[i * a.cols + t]? := by
  rw [rowOf, List.getElem?_take, if_pos ht, List.getElem?_drop]

theorem colOf_length (b : Matrix α) (j : Nat)
    (hb : b.data.length = b.rows * b.cols) (hj : j < b.cols) :
    (colOf b j).length = b.rows := by
  have hc : 1 ≤ b.cols := Nat.lt_of_le_of_lt (Nat.zero_le j) hj
  rw [colOf, stepBy_length _ _ hc, List.length_drop, hb]
  rcases Nat.eq_zero_or_pos b.rows with hr | hr
  · rw [hr, Nat.zero_mul]
    rw [show 0 - j + b.cols - 1 = b.cols - 1 by omega]
    exact Nat.div_eq_of_lt (by omega)
  · have hjm : j ≤ b.rows * b.cols := by
      calc j ≤ b.cols := Nat.le_of_lt hj
      _ = 1 * b.cols := (Nat.one_mul _).symm
      _ ≤ b.rows * b.cols := Nat.mul_le_mul_right _ hr
    have lo : b.rows * b.cols ≤ b.rows * b.cols - j + b.cols - 1 := by omega
    have hi2 : b.rows * b.cols - j + b.cols - 1 < (b.rows + 1) * b.cols := by
      rw [Nat.succ_mul]; omega
    exact Nat.div_eq_of_lt_le lo hi2

theorem colOf_getElem? (b : Matrix α) (j t : Nat)
    (hb : b.data.length = b.rows * b.cols) (hj : j < b.cols) (ht : t < b.rows) :
    (colOf b j)[t]? = b.data[j + t * b.cols]? := by
  have hc : 1 ≤ b.cols := Nat.lt_of_le_of_lt (Nat.zero_le j) hj
  have hmul : (t + 1) * b.cols ≤ b.rows * b.cols := Nat.mul_le_mul_right _ ht
  rw [Nat.succ_mul] at hmul
  have hlt : t * b.cols < (b.data.drop j).length := by
    rw [List.length_drop, hb]; omega
  rw [colOf, stepBy_getElem? _ _ _ hc hlt, List.getElem?_drop]

theorem mkTask_eq (a b : Matrix α) (i j : Nat)
    (ha : a.data.length = a.rows * a.cols)
    (hi : i < a.rows) (hjb : j ≤ b.data.length) :
    mkTask a b i j =
      some ⟨i * b.cols + j, Vector.new (rowOf a i), Vector.new (colOf b j)⟩ := by
  have h2 : i * a.cols ≤ (i + 1) * a.cols := Nat.mul_le_mul_right _ (Nat.le_succ i)
  have h3 : (i + 1) * a.cols ≤ a.data.length := by
    rw [ha]; exact Nat.mul_le_mul_right _ hi
  have h4 : (i + 1) * a.cols - i * a.cols = a.cols := by
    rw [Nat.succ_mul, Nat.add_sub_cancel_left]
  rw [mkTask, sliceFrom, if_pos hjb, sliceRange, if_pos ⟨h2, h3⟩, h4]
  rfl

theorem flatMap_congr {γ δ : Type} {l : List γ} {f h : γ → List δ}
    (H : ∀ x ∈ l, f x = h x) : l.flatMap f = l.flatMap h := by
  induction l with
  | nil => rfl
  | cons x xs ih =>
    simp only [List.flatMap_cons, H x (by simp),
      ih (fun y hy => H y (by simp [hy]))]

theorem flatMap_range_mul {β : Type} (g : Nat → β) (r c : Nat) :
    (List.range r).flatMap (fun i => (List.range c).map (fun j => g (i * c + j))) =
      (List.range (r * c)).map g := by
  induction r with
  | zero => simp
  | succ m ih =>
    rw [List.range_succ, List.flatMap_append, ih, Nat.succ_mul, List.range_add,
      List.map_append]
    simp [List.map_map, Function.comp_def]

theorem gatherFrom_append (res : List α) (l1 l2 : List (MsgOutput α)) :
    gatherFrom res (l1 ++ l2) =
      (gatherFrom res l1).bind (fun r1 => gatherFrom r1 l2) := by
  induction l1 generalizing res with
  | nil => simp [gatherFrom]
  | cons o l ih =>
    simp only [List.cons_append, gatherFrom]
    cases writeResult res o with
    | none => rfl
    | some r1 => exact ih r1

theorem gatherFrom_range_map {α : Type} (g : Nat → MsgOutput α) (res : List α)
    (n : Nat) (hn : n ≤ res.length) (hidx : ∀ q, q < n → (g q).idx = q) :
    ∃ res2, gatherFrom res ((List.range n).map g) = some res2 ∧
      res2.length = res.length ∧
      ∀ q, res2[q]? = if q < n then some (g q).value else res[q]? := by
  induction n with
  | zero => exact ⟨res, rfl, rfl, by simp⟩
  | succ m ih =>
    obtain ⟨r1, h1, hlen, hget⟩ :=
      ih (Nat.le_trans (Nat.le_succ m) hn) (fun q hq => hidx q (Nat.lt_succ_of_lt hq))
    have hm : (g m).idx = m := hidx m (Nat.lt_succ_self m)
    have hmlt : (g m).idx < r1.length := by rw [hm, hlen]; omega
    refine ⟨r1.set (g m).idx (g m).value, ?_, ?_, ?_⟩
    · rw [List.range_succ, List.map_append, gatherFrom_append, h1,
        Option.some_bind]
      simp [gatherFrom, writeResult, hmlt]
    · simp [hlen]
    · intro q
      rcases Decidable.eq_or_ne q m with rfl | hne
      · rw [hm, List.getElem?_set_self (hm ▸ hmlt), if_pos (Nat.lt_succ_self q)]
      · rw [hm, List.getElem?_set_ne (fun h => hne h.symm), hget q]
        rcases Nat.lt_or_ge q m with h | h
        · rw [if_pos h, if_pos (Nat.lt_succ_of_lt h)]
        · rw [if_neg (by omega), if_neg (by omega)]

/-- The sequential triple-loop reference value of output cell `(i, j)`:
`Σ_t a[i * a.cols + t] * b[t * b.cols + j]`. -/
def cellValue {α : Type} [AddCommMonoid α] [Mul α] (a b : Matrix α) (i j : Nat) : α :=
  ∑ t ∈ Finset.range a.cols, a.data.getD (i * a.cols + t) 0 * b.data.getD (t * b.cols + j) 0

/-- The reply for destination index `q`, with its cell recovered from the
row-major index. -/
def gridOut {α : Type} [AddCommMonoid α] [Mul α] (a b : Matrix α) (q : Nat) : MsgOutput α :=
  ⟨q, cellValue a b (q / b.cols) (q % b.cols)⟩

theorem grid_div (i j c : Nat) (hj : j < c) : (i * c + j) / c = i := by
  have hc : 0 < c := Nat.lt_of_le_of_lt (Nat.zero_le j) hj
  rw [Nat.add_comm, Nat.mul_comm, Nat.add_mul_div_left _ _ hc,
    Nat.div_eq_of_lt hj, Nat.zero_add]

theorem grid_mod (i j c : Nat) (hj : j < c) : (i * c + j) % c = j := by
  rw [Nat.add_comm, Nat.add_mul_mod_self_right, Nat.mod_eq_of_lt hj]

theorem dot_grid {α : Type} [NonUnitalNonAssocSemiring α] (a b : Matrix α)
    (i j : Nat)
    (ha : a.data.length = a.rows * a.cols)
    (hb : b.data.length = b.rows * b.cols)
    (hab : a.cols = b.rows)
    (hi : i < a.rows) (hj : j < b.cols) :
    dot_product (Vector.new (rowOf a i)) (Vector.new (colOf b j)) =
      .ok (cellValue a b i j) := by
  have hrl : (rowOf a i).length = a.cols := rowOf_length a i ha hi
  have hcl : (colOf b j).length = b.rows := colOf_length b j hb hj
  have hlen : (Vector.new (rowOf a i)).data.length =
      (Vector.new (colOf b j)).data.length := by
    simp [Vector.new, hrl, hcl, hab]
  rw [dot_product_ok _ _ hlen]
  congr 1
  rw [show (Vector.new (rowOf a i)).data.length = a.cols from hrl, cellValue]
  refine Finset.sum_congr rfl (fun t ht => ?_)
  have ht1 : t < a.cols := Finset.mem_range.mp ht
  have ht2 : t < b.rows := hab ▸ ht1
  simp only [Vector.new, List.getD_eq_getElem?_getD]
  rw [rowOf_getElem? a i t ht1, colOf_getElem? b j t hb hj ht2,
    Nat.add_comm j (t * b.cols)]

theorem runTask_grid {α : Type} [NonUnitalNonAssocSemiring α] (a b : Matrix α)
    (i j : Nat)
    (ha : a.data.length = a.rows * a.cols)
    (hb : b.data.length = b.rows * b.cols)
    (hab : a.cols = b.rows)
    (hi : i < a.rows) (hj : j < b.cols) :
    runTask ⟨i * b.cols + j, Vector.new (rowOf a i), Vector.new (colOf b j)⟩ =
      some ⟨i * b.cols + j, cellValue a b i j⟩ := by
  rw [runTask, dot_grid a b i j ha hb hab hi hj]

theorem mem_pairGrid {r c : Nat} {p : Nat × Nat} :
    p ∈ pairGrid r c ↔ p.1 < r ∧ p.2 < c := by
  cases p with
  | mk i j =>
    simp [pairGrid, List.mem_flatMap, List.mem_map, List.mem_range]

theorem multiply_eq_of {α : Type} [Zero α] [Add α] [Mul α] (a b : Matrix α)
    (n : Nat) (hcols : a.cols = b.rows) (hnz : n ≠ 0)
    (ts : List (MsgInput α)) (outs : List (MsgOutput α)) (res : List α)
    (h1 : genTasks a b = some ts)
    (h2 : workerOutputs ts = some outs)
    (h3 : gather (a.rows * b.cols) outs = some res) :
    multiply a b n = .ok (Matrix.new a.rows b.cols res) := by
  rw [multiply, if_neg (by simp [hcols])]
  simp only [h1, h2, h3]
  rw [if_neg (by rintro ⟨-, h0⟩; exact hnz h0)]

theorem multiply_ok {α : Type} [NonUnitalNonAssocSemiring α] (a b : Matrix α)
    (n : Nat)
    (ha : a.data.length = a.rows * a.cols)
    (hb : b.data.length = b.rows * b.cols)
    (hab : a.cols = b.rows)
    (hn : 1 ≤ n)
    (hdeg : 1 ≤ a.cols ∨ b.cols ≤ 1 ∨ a.rows = 0) :
    ∃ m, multiply a b n = .ok m ∧ m.rows = a.rows ∧ m.cols = b.cols ∧
      m.data.length = a.rows * b.cols ∧
      ∀ i j, i < a.rows → j < b.cols →
        m.data.getD (i * b.cols + j) 0 = cellValue a b i j := by
  have hcols : ¬ a.cols ≠ b.rows := by simp [hab]
  by_cases hc0 : b.cols = 0
  · -- degenerate: no output columns, no tasks at all
    have hgen : genTasks a b = some [] := by
      rw [genTasks, hc0]
      rw [show ((List.range a.rows).flatMap fun i =>
          (List.range 0).map fun j => mkTask a b i j) = [] from by simp]
      rfl
    refine ⟨Matrix.new a.rows b.cols (List.replicate (a.rows * b.cols) (0 : α)),
      ?_, rfl, rfl, by simp [Matrix.new], ?_⟩
    · exact multiply_eq_of a b n hab (by omega) [] [] _ hgen rfl rfl
    · intro i j hi hj
      rw [hc0] at hj
      exact absurd hj (Nat.not_lt_zero j)
  · have hc : 0 < b.cols := Nat.pos_of_ne_zero hc0
    have hjb : ∀ i j, i < a.rows → j < b.cols → j ≤ b.data.length := by
      intro i j hi hj
      rcases hdeg with h1 | h1 | h1
      · have h2 : 1 * b.cols ≤ b.rows * b.cols :=
          Nat.mul_le_mul_right _ (hab ▸ h1)
        rw [Nat.one_mul] at h2
        rw [hb]
        omega
      · omega
      · omega
    have hgen : genTasks a b = some ((pairGrid a.rows b.cols).map (fun p =>
        (⟨p.1 * b.cols + p.2, Vector.new (rowOf a p.1),
          Vector.new (colOf b p.2)⟩ : MsgInput α))) := by
      rw [genTasks]
      rw [show ((List.range a.rows).flatMap fun i =>
          (List.range b.cols).map fun j => mkTask a b i j) =
          (pairGrid a.rows b.cols).map (fun p => mkTask a b p.1 p.2) from by
        simp [pairGrid, List.map_flatMap, List.map_map, Function.comp_def]]
      exact allSome_map (fun p hp => by
        obtain ⟨h1, h2⟩ := mem_pairGrid.mp hp
        exact mkTask_eq a b p.1 p.2 ha h1 (hjb p.1 p.2 h1 h2))
    have houts : workerOutputs ((pairGrid a.rows b.cols).map (fun p =>
        (⟨p.1 * b.cols + p.2, Vector.new (rowOf a p.1),
          Vector.new (colOf b p.2)⟩ : MsgInput α))) =
        some ((pairGrid a.rows b.cols).map (fun p =>
          (⟨p.1 * b.cols + p.2, cellValue a b p.1 p.2⟩ : MsgOutput α))) := by
      rw [workerOutputs, List.map_map]
      exact allSome_map (fun p hp => by
        obtain ⟨h1, h2⟩ := mem_pairGrid.mp hp
        exact runTask_grid a b p.1 p.2 ha hb hab h1 h2)
    have hmapg : (pairGrid a.rows b.cols).map (fun p =>
        (⟨p.1 * b.cols + p.2, cellValue a b p.1 p.2⟩ : MsgOutput α)) =
        (List.range (a.rows * b.cols)).map (gridOut a b) := by
      have step1 : (pairGrid a.rows b.cols).map (fun p =>
          (⟨p.1 * b.cols + p.2, cellValue a b p.1 p.2⟩ : MsgOutput α)) =
          (List.range a.rows).flatMap (fun i =>
            (List.range b.cols).map (fun j => gridOut a b (i * b.cols + j))) := by
        rw [pairGrid, List.map_flatMap]
        refine flatMap_congr (fun i hi => ?_)
        rw [List.map_map]
        refine List.map_congr_left (fun j hj => ?_)
        have hj2 : j < b.cols := List.mem_range.mp hj
        simp only [Function.comp_apply, gridOut, grid_div i j b.cols hj2,
          grid_mod i j b.cols hj2]
      rw [step1, flatMap_range_mul]
    obtain ⟨res2, hg1, hglen, hgget⟩ := gatherFrom_range_map (gridOut a b)
      (List.replicate (a.rows * b.cols) (0 : α)) (a.rows * b.cols)
      (by simp) (fun q hq => rfl)
    rw [List.length_replicate] at hglen
    have h3 : gather (a.rows * b.cols) ((pairGrid a.rows b.cols).map (fun p =>
        (⟨p.1 * b.cols + p.2, cellValue a b p.1 p.2⟩ : MsgOutput α))) =
        some res2 := by
      rw [gather, hmapg, hg1]
    refine ⟨Matrix.new a.rows b.cols res2, ?_, rfl, rfl, hglen, ?_⟩
    · exact multiply_eq_of a b n hab (by omega) _ _ _ hgen houts h3
    · intro i j hi hj
      have h5 : (i + 1) * b.cols ≤ a.rows * b.cols := Nat.mul_le_mul_right _ hi
      rw [Nat.succ_mul] at h5
      have hij : i * b.cols + j < a.rows * b.cols := by omega
      show res2.getD (i * b.cols + j) 0 = cellValue a b i j
      rw [List.getD_eq_getElem?_getD, hgget, if_pos hij]
      simp only [Option.getD_some]
      show cellValue a b ((i * b.cols + j) / b.cols) ((i * b.cols + j) % b.cols) =
        cellValue a b i j
      rw [grid_div i j b.cols hj, grid_mod i j b.cols hj]

theorem writeResult_length {α : Type} {res r1 : List α} {o : MsgOutput α}
    (h : writeResult res o = some r1) : r1.length = res.length := by
  rw [writeResult] at h
  split at h
  · cases h
    simp
  · cases h

/-- The returned value of `multiply` does not depend on the worker count, as
long as at least one worker exists. -/
theorem multiply_worker_count_indep {α : Type} [Zero α] [Add α] [Mul α]
    (a b : Matrix α) (n1 n2 : Nat) (h1 : n1 ≠ 0) (h2 : n2 ≠ 0) :
    multiply a b n1 = multiply a b n2 := by
  rw [multiply, multiply]
  by_cases hcol : a.cols ≠ b.rows
  · rw [if_pos hcol, if_pos hcol]
  · rw [if_neg hcol, if_neg hcol]
    cases hg : genTasks a b with
    | none => rfl
    | some ts =>
      simp only []
      rw [if_neg (by rintro ⟨-, h0⟩; exact h1 h0),
        if_neg (by rintro ⟨-, h0⟩; exact h2 h0)]

/-- Idx-addressed writes make the gather result independent of the order in
which the replies are folded in, whenever the destination indices are
pairwise distinct and in range. -/
theorem gatherFrom_perm {α : Type} {l1 l2 : List (MsgOutput α)}
    (hp : l1.Perm l2) :
    l1.Pairwise (fun o o2 => o.idx ≠ o2.idx) →
    ∀ res : List α, (∀ o ∈ l1, o.idx < res.length) →
    gatherFrom res l1 = gatherFrom res l2 := by
  induction hp with
  | nil =>
    intro _ res _
    rfl
  | cons x hp2 ih =>
    intro hdist res hbound
    simp only [gatherFrom]
    cases hw : writeResult res x with
    | none => rfl
    | some r1 =>
      exact ih (List.pairwise_cons.mp hdist).2 r1 (fun o ho => by
        rw [writeResult_length hw]
        exact hbound o (List.mem_cons_of_mem x ho))
  | swap x y l =>
    intro hdist res hbound
    have hxy : y.idx ≠ x.idx :=
      (List.pairwise_cons.mp hdist).1 x (List.mem_cons_self x l)
    have hyb : y.idx < res.length := hbound y (List.mem_cons_self y (x :: l))
    have hxb : x.idx < res.length :=
      hbound x (List.mem_cons_of_mem y (List.mem_cons_self x l))
    simp only [gatherFrom, writeResult, List.length_set, if_pos hyb, if_pos hxb]
    rw [List.set_comm _ _ _ hxy]
  | trans p1 p2 ih1 ih2 =>
    intro hdist res hbound
    rw [ih1 hdist res hbound,
      ih2 (p1.pairwise hdist (fun h => Ne.symm h)) res
        (fun o ho => hbound o (p1.mem_iff.mpr ho))]

/-- Permutation invariance lifted to `gather`. -/
theorem gather_perm {α : Type} [Zero α] {l1 l2 : List (MsgOutput α)} (n : Nat)
    (hp : l1.Perm l2)
    (hdist : l1.Pairwise (fun o o2 => o.idx ≠ o2.idx))
    (hbound : ∀ o ∈ l1, o.idx < n) :
    gather n l1 = gather n l2 := by
  rw [gather, gather]
  exact gatherFrom_perm hp hdist _ (fun o ho => by
    rw [List.length_replicate]
    exact hbound o ho)

/-- Spec-side rendering helper: concatenation with `sep` between consecutive
entries (the claim's "separated by" discipline). -/
def joinSep (sep : String) : List String → String
  | [] => ""
  | [s] => s
  | s :: s2 :: rest => s ++ sep ++ joinSep sep (s2 :: rest)

theorem joinSep_cons (sep s : String) (l : List String) (h : l ≠ []) :
    joinSep sep (s :: l) = s ++ sep ++ joinSep sep l := by
  cases l with
  | nil => exact absurd rfl h
  | cons y ys => rfl

theorem renderCells_go {α : Type} (f : α → String) (m : Matrix α) (i : Nat)
    (hi : i < m.rows) (hlen : m.data.length = m.rows * m.cols) :
    ∀ (n t : Nat) (acc : String), t + n = m.cols →
    renderCells f m i (List.range' t n) acc =
      some (acc ++ joinSep " " (((m.data.drop (i * m.cols + t)).take n).map f)) := by
  intro n
  induction n with
  | zero =>
    intro t acc ht
    simp [renderCells, joinSep]
  | succ n2 ih =>
    intro t acc ht
    have hmul : (i + 1) * m.cols ≤ m.rows * m.cols := Nat.mul_le_mul_right _ hi
    rw [Nat.succ_mul] at hmul
    have hidx : i * m.cols + t < m.data.length := by rw [hlen]; omega
    rw [List.range'_succ]
    simp only [renderCells]
    rw [List.getElem?_eq_getElem hidx]
    simp only []
    rw [ih (t + 1) _ (by omega)]
    congr 1
    rw [List.drop_eq_getElem_cons hidx, List.take_succ_cons, List.map_cons]
    rw [show i * m.cols + (t + 1) = i * m.cols + t + 1 from by omega]
    cases n2 with
    | zero =>
      rw [if_neg (show ¬ t < m.cols - 1 from by omega)]
      simp [joinSep]
    | succ n3 =>
      have hlen2 : ((m.data.drop (i * m.cols + t + 1)).take (n3 + 1)).length = n3 + 1 := by
        rw [List.length_take, List.length_drop, hlen]
        exact Nat.min_eq_left (by omega)
      rw [if_pos (show t < m.cols - 1 from by omega)]
      rw [joinSep_cons " " _ _ (fun hnil => by
        have hl0 := congrArg List.length hnil
        rw [List.length_map, hlen2] at hl0
        exact Nat.succ_ne_zero _ hl0)]
      simp [String.append_assoc]

theorem renderRows_go {α : Type} (f : α → String) (m : Matrix α)
    (hlen : m.data.length = m.rows * m.cols) :
    ∀ (n t : Nat) (acc : String), t + n = m.rows →
    renderRows f m (List.range' t n) acc =
      some (acc ++ joinSep ", " ((List.range' t n).map (fun i =>
        joinSep " " (((m.data.drop (i * m.cols)).take m.cols).map f)))) := by
  intro n
  induction n with
  | zero =>
    intro t acc ht
    simp [renderRows, joinSep]
  | succ n2 ih =>
    intro t acc ht
    rw [List.range'_succ]
    simp only [renderRows]
    rw [List.range_eq_range',
      renderCells_go f m t (by omega) hlen m.cols 0 acc (by omega)]
    simp only []
    rw [ih (t + 1) _ (by omega)]
    congr 1
    rw [List.map_cons, Nat.add_zero]
    cases n2 with
    | zero =>
      rw [if_neg (show ¬ t < m.rows - 1 from by omega)]
      simp [joinSep]
    | succ n3 =>
      rw [if_pos (show t < m.rows - 1 from by omega)]
      rw [joinSep_cons ", " _ _ (fun hnil => by
        have hl0 := congrArg List.length hnil
        rw [List.length_map, List.length_range'] at hl0
        exact Nat.succ_ne_zero _ hl0)]
      simp [String.append_assoc]

/-- Under the row-major size invariant, `Display` renders exactly the
claimed format: cells space-separated, rows `", "`-separated, wrapped
in braces. -/
theorem display_eq {α : Type} (f : α → String) (m : Matrix α)
    (h : m.data.length = m.rows * m.cols) :
    display f m = some ("\x7b" ++ joinSep ", " ((List.range m.rows).map (fun i =>
      joinSep " " (((m.data.drop (i * m.cols)).take m.cols).map f))) ++ "\x7d") := by
  rw [display, List.range_eq_range', renderRows_go f m h m.rows 0 "\x7b" (by omega)]

theorem multiply_compat_not_dim {α : Type} [Zero α] [Add α] [Mul α]
    (a b : Matrix α) (n : Nat) (hc : a.cols = b.rows) :
    multiply a b n ≠ .error .DimensionMismatch := by
  rw [multiply, if_neg (by simp [hc])]
  cases hg : genTasks a b with
  | none =>
    intro h
    exact MErr.noConfusion (Except.error.inj h)
  | some ts =>
    simp only []
    by_cases hcon : ts.length ≠ 0 ∧ n = 0
    · rw [if_pos hcon]
      intro h
      exact MErr.noConfusion (Except.error.inj h)
    · rw [if_neg hcon]
      cases hw : workerOutputs ts with
      | none =>
        intro h
        exact MErr.noConfusion (Except.error.inj h)
      | some outs =>
        simp only []
        cases hgat : gather (a.rows * b.cols) outs with
        | none =>
          intro h
          exact MErr.noConfusion (Except.error.inj h)
        | some res =>
          simp only []
          intro h
          exact Except.noConfusion h

/-! ### Claim theorems -/

/-- C1 counterexample: A = 1×0 `[]` and B = 0×2 `[]` are compatible
(`A.cols = 0 = B.rows`, sizes consistent) and the worker count is
`NUM_THREADS = 4 ≥ 1`, yet `multiply` panics on the out-of-range slice
`b.data[1..]` instead of returning the reference product matrix. -/
theorem C1_counterexample :
    multiply (Matrix.new 1 0 ([] : List Int)) (Matrix.new 0 2 []) NUM_THREADS =
      .error .Panic ∧
    ∀ m : Matrix Int,
      multiply (Matrix.new 1 0 ([] : List Int)) (Matrix.new 0 2 []) NUM_THREADS ≠
        .ok m := by
  refine ⟨rfl, fun m h => ?_⟩
  rw [show multiply (Matrix.new 1 0 ([] : List Int)) (Matrix.new 0 2 [])
      NUM_THREADS = .error .Panic from rfl] at h
  exact Except.noConfusion h

/-- C1 (amended): for compatible size-consistent matrices A (r×k), B (k×c),
any worker count N ≥ 1, and — as the degenerate-slice panic forces — k ≥ 1
unless c ≤ 1 or r = 0, `multiply` returns a matrix that equals the
sequential triple-loop reference product elementwise:
result[i*c+j] = Σ_t A[i*k+t]·B[t*c+j]. -/
theorem C1_multiply_matches_reference {α : Type} [NonUnitalNonAssocSemiring α]
    (a b : Matrix α) (N : Nat)
    (ha : a.data.length = a.rows * a.cols)
    (hb : b.data.length = b.rows * b.cols)
    (hab : a.cols = b.rows)
    (hN : 1 ≤ N)
    (hdeg : 1 ≤ a.cols ∨ b.cols ≤ 1 ∨ a.rows = 0) :
    ∃ m, multiply a b N = .ok m ∧ m.rows = a.rows ∧ m.cols = b.cols ∧
      m.data.length = a.rows * b.cols ∧
      ∀ i j, i < a.rows → j < b.cols →
        m.data.getD (i * b.cols + j) 0 =
          ∑ t ∈ Finset.range a.cols,
            a.data.getD (i * a.cols + t) 0 * b.data.getD (t * b.cols + j) 0 :=
  multiply_ok a b N ha hb hab hN hdeg

/-- C1 witness: the amended theorem applied to the repo's own test matrices
A = 2×3 `[1..6]`, B = 3×2 `[1..6]` with `NUM_THREADS` workers. -/
theorem C1_witness :
    ((Matrix.new 2 3 [(1 : Int), 2, 3, 4, 5, 6]).data.length =
        (Matrix.new 2 3 [(1 : Int), 2, 3, 4, 5, 6]).rows *
          (Matrix.new 2 3 [(1 : Int), 2, 3, 4, 5, 6]).cols ∧
      (Matrix.new 3 2 [(1 : Int), 2, 3, 4, 5, 6]).data.length =
        (Matrix.new 3 2 [(1 : Int), 2, 3, 4, 5, 6]).rows *
          (Matrix.new 3 2 [(1 : Int), 2, 3, 4, 5, 6]).cols ∧
      (Matrix.new 2 3 [(1 : Int), 2, 3, 4, 5, 6]).cols =
        (Matrix.new 3 2 [(1 : Int), 2, 3, 4, 5, 6]).rows ∧
      1 ≤ NUM_THREADS) ∧
    ∃ m, multiply (Matrix.new 2 3 [(1 : Int), 2, 3, 4, 5, 6])
        (Matrix.new 3 2 [(1 : Int), 2, 3, 4, 5, 6]) NUM_THREADS = .ok m ∧
      m.rows = (Matrix.new 2 3 [(1 : Int), 2, 3, 4, 5, 6]).rows ∧
      m.cols = (Matrix.new 3 2 [(1 : Int), 2, 3, 4, 5, 6]).cols ∧
      m.data.length = (Matrix.new 2 3 [(1 : Int), 2, 3, 4, 5, 6]).rows *
        (Matrix.new 3 2 [(1 : Int), 2, 3, 4, 5, 6]).cols ∧
      ∀ i j, i < (Matrix.new 2 3 [(1 : Int), 2, 3, 4, 5, 6]).rows →
        j < (Matrix.new 3 2 [(1 : Int), 2, 3, 4, 5, 6]).cols →
        m.data.getD (i * (Matrix.new 3 2 [(1 : Int), 2, 3, 4, 5, 6]).cols + j) 0 =
          ∑ t ∈ Finset.range (Matrix.new 2 3 [(1 : Int), 2, 3, 4, 5, 6]).cols,
            (Matrix.new 2 3 [(1 : Int), 2, 3, 4, 5, 6]).data.getD
                (i * (Matrix.new 2 3 [(1 : Int), 2, 3, 4, 5, 6]).cols + t) 0 *
              (Matrix.new 3 2 [(1 : Int), 2, 3, 4, 5, 6]).data.getD
                (t * (Matrix.new 3 2 [(1 : Int), 2, 3, 4, 5, 6]).cols + j) 0 :=
  ⟨⟨rfl, rfl, rfl, by decide⟩,
    C1_multiply_matches_reference (Matrix.new 2 3 [(1 : Int), 2, 3, 4, 5, 6])
      (Matrix.new 3 2 [(1 : Int), 2, 3, 4, 5, 6]) NUM_THREADS rfl rfl rfl
      (by decide) (Or.inl (by decide))⟩

/-- C2 counterexample: A = 1×0 `[]`, B = 0×2 `[]` have `A.cols = B.rows`,
yet `multiply` does not return an assembled result matrix — it panics. -/
theorem C2_counterexample :
    (Matrix.new 1 0 ([] : List Int)).cols = (Matrix.new 0 2 ([] : List Int)).rows ∧
    multiply (Matrix.new 1 0 ([] : List Int)) (Matrix.new 0 2 []) NUM_THREADS =
      .error .Panic :=
  ⟨rfl, rfl⟩

/-- C2 (amended): `multiply` fails with `DimensionMismatch` iff
`A.cols ≠ B.rows`; and when `A.cols = B.rows` it returns an assembled result
matrix provided the sizes are consistent and — as the degenerate-slice panic
forces — `A.cols ≥ 1` unless `B.cols ≤ 1` or `A.rows = 0`. -/
theorem C2_dimension_mismatch {α : Type} [NonUnitalNonAssocSemiring α]
    (a b : Matrix α) :
    (multiply a b NUM_THREADS = .error .DimensionMismatch ↔ a.cols ≠ b.rows) ∧
    (a.cols = b.rows → a.data.length = a.rows * a.cols →
      b.data.length = b.rows * b.cols →
      (1 ≤ a.cols ∨ b.cols ≤ 1 ∨ a.rows = 0) →
      ∃ m, multiply a b NUM_THREADS = .ok m) := by
  constructor
  · constructor
    · intro h
      by_contra hne
      exact multiply_compat_not_dim a b NUM_THREADS hne h
    · intro hne
      rw [multiply, if_pos hne]
  · intro h1 h2 h3 h4
    obtain ⟨m, hm, -, -, -, -⟩ := multiply_ok a b NUM_THREADS h2 h3 h1 (by decide) h4
    exact ⟨m, hm⟩

/-- C2 witness: the success branch at the repo's 2×2 test matrices. -/
theorem C2_witness :
    ∃ m : Matrix Int,
      multiply (Matrix.new 2 2 [(1 : Int), 2, 3, 4])
        (Matrix.new 2 2 [(1 : Int), 2, 3, 4]) NUM_THREADS = .ok m :=
  (C2_dimension_mismatch (Matrix.new 2 2 [(1 : Int), 2, 3, 4])
    (Matrix.new 2 2 [(1 : Int), 2, 3, 4])).2 rfl rfl rfl (Or.inl (by decide))

/-- C3: for equal-length vectors, `dot_product` returns
Ok(Σ a[i]·b[i]) seeded with the additive identity; in particular all-zero
vectors yield 0. -/
theorem C3_dot_product_sum {α : Type} [NonUnitalNonAssocSemiring α]
    (a b : Vector α) (h : a.data.length = b.data.length) :
    dot_product a b =
      .ok (∑ i ∈ Finset.range a.data.length, a.data.getD i 0 * b.data.getD i 0) ∧
    ∀ n : Nat, dot_product (Vector.new (List.replicate n (0 : α)))
      (Vector.new (List.replicate n 0)) = .ok 0 := by
  refine ⟨dot_product_ok a b h, fun n => ?_⟩
  rw [dot_product_ok _ _ (by simp)]
  congr 1
  refine Finset.sum_eq_zero (fun i hi => ?_)
  have hi2 : i < n := by
    simpa [Vector.new] using Finset.mem_range.mp hi
  simp [Vector.new, List.getD_eq_getElem?_getD,
    List.getElem?_replicate_of_lt hi2]

/-- C3 witness: `dot_product([1,2,3], [4,5,6])` through the theorem, plus the
all-zero instance at length 3. -/
theorem C3_witness :
    (Vector.new [(1 : Int), 2, 3]).data.length =
      (Vector.new [(4 : Int), 5, 6]).data.length ∧
    dot_product (Vector.new [(1 : Int), 2, 3]) (Vector.new [(4 : Int), 5, 6]) =
      .ok (∑ i ∈ Finset.range (Vector.new [(1 : Int), 2, 3]).data.length,
        (Vector.new [(1 : Int), 2, 3]).data.getD i 0 *
          (Vector.new [(4 : Int), 5, 6]).data.getD i 0) ∧
    dot_product (Vector.new (List.replicate 3 (0 : Int)))
      (Vector.new (List.replicate 3 0)) = .ok 0 :=
  ⟨rfl,
    (C3_dot_product_sum (Vector.new [(1 : Int), 2, 3])
      (Vector.new [(4 : Int), 5, 6]) rfl).1,
    (C3_dot_product_sum (Vector.new [(1 : Int), 2, 3])
      (Vector.new [(4 : Int), 5, 6]) rfl).2 3⟩

/-- C4: `dot_product` fails with `DimensionMismatch` iff the vector lengths
differ. -/
theorem C4_dot_product_mismatch {α : Type} [Zero α] [Add α] [Mul α]
    (a b : Vector α) :
    dot_product a b = .error .DimensionMismatch ↔
      a.data.length ≠ b.data.length := by
  constructor
  · intro h
    by_contra hne
    rw [dot_product, if_neg (not_ne_iff.mpr hne)] at h
    exact Except.noConfusion h
  · intro hne
    rw [dot_product, if_pos hne]

/-- C5: the operator-style multiply agrees with `multiply` on compatible
operands, and on a dimension mismatch it is a panic (modelled `none`) while
`multiply` propagates the `DimensionMismatch` error. -/
theorem C5_operator_equiv {α : Type} [NonUnitalNonAssocSemiring α]
    (a b : Matrix α) :
    (a.cols = b.rows →
      ∀ m, matMulOp a b = some m ↔ multiply a b NUM_THREADS = .ok m) ∧
    (a.cols ≠ b.rows →
      matMulOp a b = none ∧
      multiply a b NUM_THREADS = .error .DimensionMismatch) := by
  constructor
  · intro _ m
    rw [matMulOp]
    cases hm : multiply a b NUM_THREADS with
    | ok m2 =>
      simp only []
      constructor
      · intro h
        rw [Option.some.inj h]
      · intro h
        rw [Except.ok.inj h]
    | error e =>
      simp only []
      constructor
      · intro h
        exact Option.noConfusion h
      · intro h
        exact Except.noConfusion h
  · intro hc
    refine ⟨?_, ?_⟩
    · rw [matMulOp, multiply, if_pos hc]
    · rw [multiply, if_pos hc]

/-- C5 witness: agreement on the 2×2 test product, and the fatal branch on
a 2×2 by 1×3 mismatch. -/
theorem C5_witness :
    (matMulOp (Matrix.new 2 2 [(1 : Int), 2, 3, 4])
        (Matrix.new 2 2 [(1 : Int), 2, 3, 4]) =
        some (Matrix.new 2 2 [(7 : Int), 10, 15, 22]) ↔
      multiply (Matrix.new 2 2 [(1 : Int), 2, 3, 4])
        (Matrix.new 2 2 [(1 : Int), 2, 3, 4]) NUM_THREADS =
        .ok (Matrix.new 2 2 [(7 : Int), 10, 15, 22])) ∧
    (matMulOp (Matrix.new 2 2 [(1 : Int), 2, 3, 4])
        (Matrix.new 1 3 [(9 : Int), 9, 9]) = none ∧
      multiply (Matrix.new 2 2 [(1 : Int), 2, 3, 4])
        (Matrix.new 1 3 [(9 : Int), 9, 9]) NUM_THREADS =
        .error .DimensionMismatch) :=
  ⟨(C5_operator_equiv (Matrix.new 2 2 [(1 : Int), 2, 3, 4])
      (Matrix.new 2 2 [(1 : Int), 2, 3, 4])).1 rfl
      (Matrix.new 2 2 [(7 : Int), 10, 15, 22]),
    (C5_operator_equiv (Matrix.new 2 2 [(1 : Int), 2, 3, 4])
      (Matrix.new 1 3 [(9 : Int), 9, 9])).2 (by decide)⟩

/-- C6: `Display` renders the data row-major — cells space-separated within
a row, rows separated by `", "`, wrapped in `{ }` — and in particular the
2×3 and 3×2 matrices `[1,2,3,4,5,6]` render as `"\x7b1 2 3, 4 5 6\x7d"` and
`"\x7b1 2, 3 4, 5 6\x7d"`. -/
theorem C6_display_format {α : Type} (f : α → String) (m : Matrix α)
    (h : m.data.length = m.rows * m.cols) :
    display f m = some ("\x7b" ++ joinSep ", " ((List.range m.rows).map (fun i =>
      joinSep " " (((m.data.drop (i * m.cols)).take m.cols).map f))) ++ "\x7d") ∧
    display toString (Matrix.new 2 3 [(1 : Nat), 2, 3, 4, 5, 6]) =
      some "\x7b1 2 3, 4 5 6\x7d" ∧
    display toString (Matrix.new 3 2 [(1 : Nat), 2, 3, 4, 5, 6]) =
      some "\x7b1 2, 3 4, 5 6\x7d" :=
  ⟨display_eq f m h, rfl, rfl⟩

/-- C6 witness: the format theorem applied to the 2×3 example matrix. -/
theorem C6_witness :
    (Matrix.new 2 3 [(1 : Nat), 2, 3, 4, 5, 6]).data.length =
      (Matrix.new 2 3 [(1 : Nat), 2, 3, 4, 5, 6]).rows *
        (Matrix.new 2 3 [(1 : Nat), 2, 3, 4, 5, 6]).cols ∧
    display toString (Matrix.new 2 3 [(1 : Nat), 2, 3, 4, 5, 6]) =
      some ("\x7b" ++ joinSep ", " ((List.range 2).map (fun i =>
        joinSep " " ((([(1 : Nat), 2, 3, 4, 5, 6].drop (i * 3)).take 3).map
          toString))) ++ "\x7d") :=
  ⟨rfl, (C6_display_format toString (Matrix.new 2 3 [(1 : Nat), 2, 3, 4, 5, 6])
    rfl).1⟩

/-- C7: `multiply` is deterministic — its value is independent of the worker
count (for any two counts ≥ 1), and the idx-addressed gather is invariant
under any permutation of the reply arrival order when the destination
indices are pairwise distinct and in range. -/
theorem C7_deterministic {α : Type} [Zero α] [Add α] [Mul α]
    (a b : Matrix α) (n1 n2 : Nat) (h1 : 1 ≤ n1) (h2 : 1 ≤ n2) :
    multiply a b n1 = multiply a b n2 ∧
    ∀ (n : Nat) (outs1 outs2 : List (MsgOutput α)), outs1.Perm outs2 →
      outs1.Pairwise (fun o o2 => o.idx ≠ o2.idx) →
      (∀ o ∈ outs1, o.idx < n) →
      gather n outs1 = gather n outs2 :=
  ⟨multiply_worker_count_indep a b n1 n2 (by omega) (by omega),
    fun n outs1 outs2 hp hd hb => gather_perm n hp hd hb⟩

/-- C7 witness: determinism instantiated at the 2×3 by 3×2 test product with
worker counts 1 and `NUM_THREADS`. -/
theorem C7_witness :
    (1 ≤ 1 ∧ 1 ≤ NUM_THREADS) ∧
    (multiply (Matrix.new 2 3 [(1 : Int), 2, 3, 4, 5, 6])
        (Matrix.new 3 2 [(1 : Int), 2, 3, 4, 5, 6]) 1 =
      multiply (Matrix.new 2 3 [(1 : Int), 2, 3, 4, 5, 6])
        (Matrix.new 3 2 [(1 : Int), 2, 3, 4, 5, 6]) NUM_THREADS ∧
      ∀ (n : Nat) (outs1 outs2 : List (MsgOutput Int)), outs1.Perm outs2 →
        outs1.Pairwise (fun o o2 => o.idx ≠ o2.idx) →
        (∀ o ∈ outs1, o.idx < n) →
        gather n outs1 = gather n outs2) :=
  ⟨⟨Nat.le_refl 1, by decide⟩,
    C7_deterministic (Matrix.new 2 3 [(1 : Int), 2, 3, 4, 5, 6])
      (Matrix.new 3 2 [(1 : Int), 2, 3, 4, 5, 6]) 1 NUM_THREADS
      (Nat.le_refl 1) (by decide)⟩

/-- C8: `Matrix::new` stores the triple exactly as given, for every triple —
no validation of `data.length = rows * cols` is performed (the statement
holds with no constraint relating `data` to `rows * cols`). -/
theorem C8_new_stores_as_given {α : Type} (rows cols : Nat) (data : List α) :
    (Matrix.new rows cols data).rows = rows ∧
    (Matrix.new rows cols data).cols = cols ∧
    (Matrix.new rows cols data).data = data :=
  ⟨rfl, rfl, rfl⟩

/-- C10 counterexample: size-consistent compatible matrices A = 1×0 `[]`,
B = 0×2 `[]` make `multiply` reach the out-of-range slice `b.data[1..]`
(a panic branch). -/
theorem C10_counterexample :
    (Matrix.new 1 0 ([] : List Int)).data.length =
      (Matrix.new 1 0 ([] : List Int)).rows *
        (Matrix.new 1 0 ([] : List Int)).cols ∧
    (Matrix.new 0 2 ([] : List Int)).data.length =
      (Matrix.new 0 2 ([] : List Int)).rows *
        (Matrix.new 0 2 ([] : List Int)).cols ∧
    (Matrix.new 1 0 ([] : List Int)).cols =
      (Matrix.new 0 2 ([] : List Int)).rows ∧
    multiply (Matrix.new 1 0 ([] : List Int)) (Matrix.new 0 2 []) NUM_THREADS =
      .error .Panic :=
  ⟨rfl, rfl, rfl, rfl⟩

/-- C10 (amended): for size-consistent compatible matrices with — as the
degenerate-slice panic forces — `A.cols ≥ 1` unless `B.cols ≤ 1` or
`A.rows = 0`, every sequence access of `multiply` is in bounds: no panic
branch is reached and an assembled matrix is returned. -/
theorem C10_no_out_of_bounds {α : Type} [NonUnitalNonAssocSemiring α]
    (a b : Matrix α)
    (ha : a.data.length = a.rows * a.cols)
    (hb : b.data.length = b.rows * b.cols)
    (hab : a.cols = b.rows)
    (hdeg : 1 ≤ a.cols ∨ b.cols ≤ 1 ∨ a.rows = 0) :
    multiply a b NUM_THREADS ≠ .error .Panic ∧
    ∃ m, multiply a b NUM_THREADS = .ok m := by
  obtain ⟨m, hm, -, -, -, -⟩ :=
    multiply_ok a b NUM_THREADS ha hb hab (by decide) hdeg
  refine ⟨fun h => ?_, ⟨m, hm⟩⟩
  rw [hm] at h
  exact Except.noConfusion h

/-- C10 witness: in-bounds execution on the 2×2 test matrices. -/
theorem C10_witness :
    ((Matrix.new 2 2 [(1 : Int), 2, 3, 4]).data.length =
        (Matrix.new 2 2 [(1 : Int), 2, 3, 4]).rows *
          (Matrix.new 2 2 [(1 : Int), 2, 3, 4]).cols ∧
      (Matrix.new 2 2 [(1 : Int), 2, 3, 4]).cols =
        (Matrix.new 2 2 [(1 : Int), 2, 3, 4]).rows) ∧
    (multiply (Matrix.new 2 2 [(1 : Int), 2, 3, 4])
        (Matrix.new 2 2 [(1 : Int), 2, 3, 4]) NUM_THREADS ≠ .error .Panic ∧
      ∃ m, multiply (Matrix.new 2 2 [(1 : Int), 2, 3, 4])
        (Matrix.new 2 2 [(1 : Int), 2, 3, 4]) NUM_THREADS = .ok m) :=
  ⟨⟨rfl, rfl⟩,
    C10_no_out_of_bounds (Matrix.new 2 2 [(1 : Int), 2, 3, 4])
      (Matrix.new 2 2 [(1 : Int), 2, 3, 4]) rfl rfl rfl (Or.inl (by decide))⟩

end Concurrency
